import Mathlib

/-!
# Verification of the document-processing core

A shallow embedding, in Lean 4, of `backend/app/core/document_processor.py`:
the diff-to-suggestion mapping (`T5Model._generate_suggestions`,
`T5Model._get_suggestion_reason`), the two improvement backends
(`OllamaModel.improve_text`, `T5Model.improve_text`), the fallback
orchestrator (`AIDocumentModel.__init__`, `AIDocumentModel.improve_text`)
and the text extractor (`extract_text`).

Python strings are modelled as `List Char` (a Python `str` is a sequence of
code points); file bytes as `List Nat`.  External libraries (the Ollama chat
client, the T5 generation pipeline, `difflib.SequenceMatcher`, the
PDF/DOCX/XLSX/ZIP parsers) are modelled as oracle parameters, so every
theorem quantifies over their behaviour; the repository's own control flow is
transcribed statement by statement.
-/

namespace DocProc

/-- Whitespace as Python's `str.strip` / `str.isspace` treat ASCII text. -/
def pyIsSpace (c : Char) : Bool :=
  c = ' ' || c = '\t' || c = '\n' || c = '\r' || c = '\x0b' || c = '\x0c'

/-- Python `s.strip()`: drop whitespace from both ends. -/
def pyStrip (s : List Char) : List Char :=
  (s.dropWhile pyIsSpace).rdropWhile pyIsSpace

/-- Python `s[a:b]` for `a ≤ b` (clamping at the ends, as Python slicing does). -/
def slice (s : List Char) (a b : Nat) : List Char :=
  (s.drop a).take (b - a)

/-- The dataclass `Suggestion` (id, start, end, original_text, improved_text,
reason, status).  The Python field `end` is spelled `stop` here because `end`
is a Lean keyword. -/
structure Suggestion where
  id : Nat
  start : Nat
  stop : Nat
  original_text : List Char
  improved_text : List Char
  reason : String
  status : String
deriving DecidableEq, Repr

/-- The dataclass `TextImprovementResult`. -/
structure TextImprovementResult where
  improved_text : List Char
  suggestions : List Suggestion
deriving DecidableEq, Repr

/-- The exception `AIModelError`, carrying its message. -/
structure AIModelError where
  msg : String
deriving DecidableEq, Repr

/-- An opcode tag of `difflib.SequenceMatcher.get_opcodes`. -/
inductive Tag where
  | equal
  | replace
  | delete
  | insert
deriving DecidableEq, Repr

/-- One opcode `(tag, i1, i2, j1, j2)` from `get_opcodes`. -/
structure Opcode where
  tag : Tag
  i1 : Nat
  i2 : Nat
  j1 : Nat
  j2 : Nat
deriving DecidableEq, Repr

/-- `T5Model._get_suggestion_reason`. -/
def getSuggestionReason (original improved : List Char) (tag : Tag) : String :=
  match tag with
  | Tag.replace =>
      if original.length = improved.length then
        "Corrected potential typo or improved word choice"
      else
        "Improved clarity or style"
  | Tag.delete => "Removed redundant or unnecessary text"
  | Tag.insert => "Added text for clarity or completeness"
  | Tag.equal => "General improvement"

/-- The loop body of `T5Model._generate_suggestions`, with the running
`suggestion_id` made explicit (the Python locals `original_segment` /
`improved_segment` / `reason` are inlined). -/
def generateSuggestionsAux (original improved : List Char) :
    List Opcode → Nat → List Suggestion
  | [], _ => []
  | op :: rest, sid =>
    if op.tag = Tag.equal then
      generateSuggestionsAux original improved rest sid
    else
      if !(pyStrip (slice original op.i1 op.i2)).isEmpty ||
          !(pyStrip (if op.tag = Tag.delete then []
              else slice improved op.j1 op.j2)).isEmpty then
        { id := sid, start := op.i1, stop := op.i2,
          original_text := slice original op.i1 op.i2,
          improved_text :=
            if op.tag = Tag.delete then [] else slice improved op.j1 op.j2,
          reason := getSuggestionReason (slice original op.i1 op.i2)
            (if op.tag = Tag.delete then [] else slice improved op.j1 op.j2)
            op.tag,
          status := "pending" } ::
          generateSuggestionsAux original improved rest (sid + 1)
      else
        generateSuggestionsAux original improved rest sid

/-- `T5Model._generate_suggestions`, over the opcode list produced by the
sequence matcher (`suggestion_id` starts at 1). -/
def generateSuggestions (original improved : List Char) (ops : List Opcode) :
    List Suggestion :=
  generateSuggestionsAux original improved ops 1

/-! ## Specification-side rendering of the diff rule

The following definitions transcribe the specification's words (one
Suggestion per non-`equal` opcode with a non-blank side, offsets/segments
taken from the opcode, sequential ids from 1, the fixed reason table), to be
compared with the code transcription above. -/

/-- Does the spec emit a Suggestion for this opcode?  "For every non-`equal`
opcode where the original segment, the replacement segment, or both are
non-blank after trimming". -/
def specEmits (original improved : List Char) (op : Opcode) : Bool :=
  op.tag ≠ Tag.equal &&
    (!(pyStrip (slice original op.i1 op.i2)).isEmpty ||
     !(pyStrip (slice improved op.j1 op.j2)).isEmpty)

/-- The spec's fixed reason rule table. -/
def specReason (original improved : List Char) (op : Opcode) : String :=
  match op.tag with
  | Tag.replace =>
      if (slice original op.i1 op.i2).length = (slice improved op.j1 op.j2).length then
        "Corrected potential typo or improved word choice"
      else
        "Improved clarity or style"
  | Tag.delete => "Removed redundant or unnecessary text"
  | Tag.insert => "Added text for clarity or completeness"
  | Tag.equal => ""

/-- The Suggestion the spec builds from an opcode, given its 1-based id:
`start`/`end` are the original-text offsets, `original_text`/`improved_text`
the corresponding segments, status `pending`. -/
def specSuggestion (original improved : List Char) (idx : Nat) (op : Opcode) :
    Suggestion :=
  { id := idx, start := op.i1, stop := op.i2,
    original_text := slice original op.i1 op.i2,
    improved_text := slice improved op.j1 op.j2,
    reason := specReason original improved op,
    status := "pending" }

/-- The spec's suggestion list: filter the emitting opcodes, number them
sequentially starting at 1 in opcode order. -/
def specSuggestions (original improved : List Char) (ops : List Opcode) :
    List Suggestion :=
  (List.enumFrom 1 (ops.filter (specEmits original improved))).map
    (fun p => specSuggestion original improved p.1 p.2)

/-! ## Well-formedness of `get_opcodes` output

`difflib.SequenceMatcher.get_opcodes` returns a contiguous partition of both
strings in which `equal` blocks are the (non-empty) matching blocks and any
two consecutive matching blocks are separated by exactly one non-`equal`
opcode; so non-`equal` opcodes are never adjacent, `delete` has an empty
right segment, `insert` an empty left segment, and `replace` two non-empty
segments. -/

/-- Shape constraints on a single opcode. -/
def opcodeOk (op : Opcode) : Bool :=
  match op.tag with
  | Tag.equal => decide (op.i1 < op.i2) && decide (op.i2 - op.i1 = op.j2 - op.j1)
  | Tag.replace => decide (op.i1 < op.i2) && decide (op.j1 < op.j2)
  | Tag.delete => decide (op.i1 < op.i2) && decide (op.j1 = op.j2)
  | Tag.insert => decide (op.i1 = op.i2) && decide (op.j1 < op.j2)

/-- Consecutive opcodes are chained (each starts where the previous one
ends) and never both non-`equal`. -/
def chainedOps : List Opcode → Bool
  | [] => true
  | [_] => true
  | a :: b :: rest =>
      decide (b.i1 = a.i2) && decide (b.j1 = a.j2) &&
        (a.tag = Tag.equal || b.tag = Tag.equal) && chainedOps (b :: rest)

/-- Well-formed opcode list, as produced by `get_opcodes`. -/
def wellFormedOps (ops : List Opcode) : Bool :=
  ops.all opcodeOk && chainedOps ops

/-! ## Lemmas about the diff-to-suggestion mapping -/

lemma slice_self (s : List Char) (a : Nat) : slice s a a = [] := by
  simp [slice]

lemma mapFstEnumFrom (n : Nat) (l : List α) :
    (List.enumFrom n l).map (fun p => p.1) = List.range' n l.length := by
  induction l generalizing n with
  | nil => rfl
  | cons x xs ih => simp [List.enumFrom, List.range', ih]

lemma generateSuggestionsAux_eq_spec (original improved : List Char)
    (ops : List Opcode) (sid : Nat)
    (hdel : ∀ op ∈ ops, op.tag = Tag.delete → op.j1 = op.j2) :
    generateSuggestionsAux original improved ops sid =
      (List.enumFrom sid (ops.filter (specEmits original improved))).map
        (fun p => specSuggestion original improved p.1 p.2) := by
  induction ops generalizing sid with
  | nil => rfl
  | cons op rest ih =>
    have hdelRest : ∀ o ∈ rest, o.tag = Tag.delete → o.j1 = o.j2 :=
      fun o ho => hdel o (List.mem_cons_of_mem _ ho)
    by_cases heq : op.tag = Tag.equal
    · rw [generateSuggestionsAux, if_pos heq]
      have hspec : specEmits original improved op = false := by
        simp [specEmits, heq]
      rw [List.filter_cons, hspec]
      simp only [Bool.false_eq_true, reduceIte]
      exact ih sid hdelRest
    · have hseg :
          (if op.tag = Tag.delete then [] else slice improved op.j1 op.j2) =
            slice improved op.j1 op.j2 := by
        by_cases hd : op.tag = Tag.delete
        · rw [if_pos hd, hdel op (List.mem_cons_self _ _) hd, slice_self]
        · rw [if_neg hd]
      have hreason :
          getSuggestionReason (slice original op.i1 op.i2)
              (if op.tag = Tag.delete then [] else slice improved op.j1 op.j2)
              op.tag = specReason original improved op := by
        rw [hseg]
        cases htag : op.tag with
        | equal => exact absurd htag heq
        | replace => simp [getSuggestionReason, specReason, htag]
        | delete => simp [getSuggestionReason, specReason, htag]
        | insert => simp [getSuggestionReason, specReason, htag]
      rw [generateSuggestionsAux, if_neg heq, List.filter_cons]
      by_cases hemit :
          (!(pyStrip (slice original op.i1 op.i2)).isEmpty ||
            !(pyStrip (if op.tag = Tag.delete then []
                else slice improved op.j1 op.j2)).isEmpty) = true
      · have hemit' :
            (!(pyStrip (slice original op.i1 op.i2)).isEmpty ||
              !(pyStrip (slice improved op.j1 op.j2)).isEmpty) = true := by
          rw [← hseg]; exact hemit
        have hspec : specEmits original improved op = true := by
          simp [specEmits, heq, hemit']
        rw [if_pos hemit, hspec]
        simp only [reduceIte]
        rw [List.enumFrom, List.map_cons, ih (sid + 1) hdelRest]
        congr 1
        rw [hseg] at hreason
        simp [specSuggestion, hseg, hreason]
      · have hemit' :
            (!(pyStrip (slice original op.i1 op.i2)).isEmpty ||
              !(pyStrip (slice improved op.j1 op.j2)).isEmpty) = false := by
          rw [← hseg]
          exact Bool.eq_false_iff.mpr hemit
        have hspec : specEmits original improved op = false := by
          simp [specEmits, hemit']
        rw [if_neg hemit, hspec]
        simp only [Bool.false_eq_true, reduceIte]
        exact ih sid hdelRest

lemma opcodeOk_i1_le_i2 {op : Opcode} (h : opcodeOk op = true) :
    op.i1 ≤ op.i2 := by
  cases htag : op.tag <;> simp [opcodeOk, htag] at h <;> omega

lemma chainedOps_tail {a : Opcode} {ops : List Opcode}
    (h : chainedOps (a :: ops) = true) : chainedOps ops = true := by
  cases ops with
  | nil => rfl
  | cons b rest =>
    simp only [chainedOps, Bool.and_eq_true] at h
    exact h.2

lemma chained_i2_le {a : Opcode} {ops : List Opcode}
    (hok : ∀ op ∈ ops, opcodeOk op = true)
    (h : chainedOps (a :: ops) = true) :
    ∀ op ∈ ops, a.i2 ≤ op.i1 := by
  induction ops generalizing a with
  | nil => intro op hop; cases hop
  | cons b rest ih =>
    intro op hop
    simp only [chainedOps, Bool.and_eq_true, decide_eq_true_eq] at h
    obtain ⟨⟨⟨hb1, hb2⟩, _⟩, hrest⟩ := h
    rcases List.mem_cons.mp hop with rfl | hop
    · omega
    · have hbi : b.i1 ≤ b.i2 := opcodeOk_i1_le_i2 (hok b (List.mem_cons_self _ _))
      have := ih (fun o ho => hok o (List.mem_cons_of_mem _ ho)) hrest op hop
      omega

lemma aux_start_lb (original improved : List Char) (ops : List Opcode)
    (sid n : Nat) (hlb : ∀ op ∈ ops, n ≤ op.i1) :
    ∀ s ∈ generateSuggestionsAux original improved ops sid, n ≤ s.start := by
  induction ops generalizing sid with
  | nil => intro s hs; cases hs
  | cons op rest ih =>
    have hlbRest : ∀ o ∈ rest, n ≤ o.i1 :=
      fun o ho => hlb o (List.mem_cons_of_mem _ ho)
    intro s hs
    rw [generateSuggestionsAux] at hs
    by_cases heq : op.tag = Tag.equal
    · rw [if_pos heq] at hs
      exact ih sid hlbRest s hs
    · rw [if_neg heq] at hs
      by_cases hemit :
          (!(pyStrip (slice original op.i1 op.i2)).isEmpty ||
            !(pyStrip (if op.tag = Tag.delete then []
                else slice improved op.j1 op.j2)).isEmpty) = true
      · rw [if_pos hemit] at hs
        rcases List.mem_cons.mp hs with rfl | hs
        · exact hlb op (List.mem_cons_self _ _)
        · exact ih (sid + 1) hlbRest s hs
      · rw [if_neg hemit] at hs
        exact ih sid hlbRest s hs

lemma aux_id_lb (original improved : List Char) (ops : List Opcode)
    (sid : Nat) :
    ∀ s ∈ generateSuggestionsAux original improved ops sid, sid ≤ s.id := by
  induction ops generalizing sid with
  | nil => intro s hs; cases hs
  | cons op rest ih =>
    intro s hs
    rw [generateSuggestionsAux] at hs
    by_cases heq : op.tag = Tag.equal
    · rw [if_pos heq] at hs
      exact ih sid s hs
    · rw [if_neg heq] at hs
      by_cases hemit :
          (!(pyStrip (slice original op.i1 op.i2)).isEmpty ||
            !(pyStrip (if op.tag = Tag.delete then []
                else slice improved op.j1 op.j2)).isEmpty) = true
      · rw [if_pos hemit] at hs
        rcases List.mem_cons.mp hs with rfl | hs
        · exact Nat.le_refl _
        · exact Nat.le_of_succ_le (ih (sid + 1) s hs)
      · rw [if_neg hemit] at hs
        exact ih sid s hs

lemma aux_chain (original improved : List Char) (ops : List Opcode) (sid : Nat)
    (hok : ∀ op ∈ ops, opcodeOk op = true)
    (hch : chainedOps ops = true) :
    List.Chain' (fun s t => s.id < t.id ∧ s.start < t.start)
      (generateSuggestionsAux original improved ops sid) := by
  induction ops generalizing sid with
  | nil => exact List.chain'_nil
  | cons op rest ih =>
    have hokRest : ∀ o ∈ rest, opcodeOk o = true :=
      fun o ho => hok o (List.mem_cons_of_mem _ ho)
    have hchRest : chainedOps rest = true := chainedOps_tail hch
    rw [generateSuggestionsAux]
    by_cases heq : op.tag = Tag.equal
    · rw [if_pos heq]
      exact ih sid hokRest hchRest
    · rw [if_neg heq]
      by_cases hemit :
          (!(pyStrip (slice original op.i1 op.i2)).isEmpty ||
            !(pyStrip (if op.tag = Tag.delete then []
                else slice improved op.j1 op.j2)).isEmpty) = true
      · rw [if_pos hemit]
        rw [List.chain'_cons']
        refine ⟨?_, ih (sid + 1) hokRest hchRest⟩
        intro y hy
        have hymem : y ∈ generateSuggestionsAux original improved rest (sid + 1) :=
          List.mem_of_mem_head? hy
        constructor
        · have := aux_id_lb original improved rest (sid + 1) y hymem
          simp only [] at this ⊢
          omega
        · -- `op` is not `equal`, so the next opcode (if any) is a positive
          -- `equal` block; every later suggestion starts strictly after `op.i1`.
          cases rest with
          | nil => cases hymem
          | cons e rest2 =>
            simp only [chainedOps, Bool.and_eq_true, Bool.or_eq_true,
              decide_eq_true_eq] at hch
            obtain ⟨⟨⟨he1, he2⟩, hor⟩, _⟩ := hch
            have heq2 : e.tag = Tag.equal := by
              rcases hor with h | h
              · exact absurd h heq
              · exact h
            have hei : op.i2 = e.i1 := he1.symm
            have hepos : e.i1 < e.i2 := by
              have := hokRest e (List.mem_cons_self _ _)
              simp [opcodeOk, heq2] at this
              exact this.1
            have hop12 : op.i1 ≤ op.i2 :=
              opcodeOk_i1_le_i2 (hok op (List.mem_cons_self _ _))
            have hlb2 : ∀ o ∈ rest2, e.i2 ≤ o.i1 :=
              chained_i2_le (fun o ho => hokRest o (List.mem_cons_of_mem _ ho))
                hchRest
            have hyrest2 : y ∈ generateSuggestionsAux original improved rest2 (sid + 1) := by
              rw [generateSuggestionsAux, if_pos heq2] at hymem
              exact hymem
            have := aux_start_lb original improved rest2 (sid + 1) e.i2 hlb2 y hyrest2
            simp only [] at this ⊢
            omega
      · rw [if_neg hemit]
        exact ih sid hokRest hchRest

/-- C2: over every well-formed opcode list (as `get_opcodes` produces), the
code's `_generate_suggestions` agrees with the specification's rule — one
Suggestion per non-`equal` opcode with a non-blank side, offsets and segments
taken from the opcode, status `pending` — ids are sequential starting at 1 in
opcode order, and along the output both ids and start offsets strictly
increase. -/
theorem C2_generate_suggestions_spec (original improved : List Char)
    (ops : List Opcode) (hwf : wellFormedOps ops = true) :
    generateSuggestions original improved ops =
        specSuggestions original improved ops
    ∧ (generateSuggestions original improved ops).map (fun s => s.id) =
        List.range' 1 ((ops.filter (specEmits original improved)).length)
    ∧ List.Chain' (fun s t => s.id < t.id ∧ s.start < t.start)
        (generateSuggestions original improved ops) := by
  simp only [wellFormedOps, Bool.and_eq_true, List.all_eq_true] at hwf
  obtain ⟨hok, hch⟩ := hwf
  have hdel : ∀ op ∈ ops, op.tag = Tag.delete → op.j1 = op.j2 := by
    intro op hop hd
    have := hok op hop
    simp [opcodeOk, hd] at this
    exact this.2
  have heq := generateSuggestionsAux_eq_spec original improved ops 1 hdel
  refine ⟨heq, ?_, aux_chain original improved ops 1 hok hch⟩
  rw [generateSuggestions, heq, List.map_map]
  have : ((fun s => s.id) ∘ fun p : Nat × Opcode =>
      specSuggestion original improved p.1 p.2) = fun p => p.1 := rfl
  rw [this, mapFstEnumFrom]

/-- Concrete instantiation of `C2_generate_suggestions_spec` on the
two-opcode diff of `"abcX"` against `"abcY"`. -/
theorem C2_generate_suggestions_spec_witness :
    wellFormedOps
        [⟨Tag.equal, 0, 3, 0, 3⟩, ⟨Tag.replace, 3, 4, 3, 4⟩] = true
    ∧ (generateSuggestions "abcX".data "abcY".data
          [⟨Tag.equal, 0, 3, 0, 3⟩, ⟨Tag.replace, 3, 4, 3, 4⟩] =
        specSuggestions "abcX".data "abcY".data
          [⟨Tag.equal, 0, 3, 0, 3⟩, ⟨Tag.replace, 3, 4, 3, 4⟩]
      ∧ (generateSuggestions "abcX".data "abcY".data
            [⟨Tag.equal, 0, 3, 0, 3⟩, ⟨Tag.replace, 3, 4, 3, 4⟩]).map
              (fun s => s.id) =
          List.range' 1
            (([⟨Tag.equal, 0, 3, 0, 3⟩,
                (⟨Tag.replace, 3, 4, 3, 4⟩ : Opcode)].filter
              (specEmits "abcX".data "abcY".data)).length)
      ∧ List.Chain' (fun s t => s.id < t.id ∧ s.start < t.start)
          (generateSuggestions "abcX".data "abcY".data
            [⟨Tag.equal, 0, 3, 0, 3⟩, ⟨Tag.replace, 3, 4, 3, 4⟩])) :=
  ⟨by decide,
    C2_generate_suggestions_spec "abcX".data "abcY".data
      [⟨Tag.equal, 0, 3, 0, 3⟩, ⟨Tag.replace, 3, 4, 3, 4⟩] (by decide)⟩

lemma aux_mem_reason (original improved : List Char) (ops : List Opcode)
    (sid : Nat) (s : Suggestion)
    (hs : s ∈ generateSuggestionsAux original improved ops sid) :
    ∃ op ∈ ops, op.tag ≠ Tag.equal ∧
      s.original_text = slice original op.i1 op.i2 ∧
      s.improved_text =
        (if op.tag = Tag.delete then [] else slice improved op.j1 op.j2) ∧
      s.reason = getSuggestionReason s.original_text s.improved_text op.tag := by
  induction ops generalizing sid with
  | nil => cases hs
  | cons op rest ih =>
    rw [generateSuggestionsAux] at hs
    by_cases heq : op.tag = Tag.equal
    · rw [if_pos heq] at hs
      obtain ⟨o, ho, h⟩ := ih sid hs
      exact ⟨o, List.mem_cons_of_mem _ ho, h⟩
    · rw [if_neg heq] at hs
      by_cases hemit :
          (!(pyStrip (slice original op.i1 op.i2)).isEmpty ||
            !(pyStrip (if op.tag = Tag.delete then []
                else slice improved op.j1 op.j2)).isEmpty) = true
      · rw [if_pos hemit] at hs
        rcases List.mem_cons.mp hs with rfl | hs
        · exact ⟨op, List.mem_cons_self _ _, heq, rfl, rfl, rfl⟩
        · obtain ⟨o, ho, h⟩ := ih (sid + 1) hs
          exact ⟨o, List.mem_cons_of_mem _ ho, h⟩
      · rw [if_neg hemit] at hs
        obtain ⟨o, ho, h⟩ := ih sid hs
        exact ⟨o, List.mem_cons_of_mem _ ho, h⟩

/-- C3: every Suggestion emitted by the diff loop comes from a non-`equal`
opcode and its reason follows the fixed rule table of
`_get_suggestion_reason`: equal-length replace → "Corrected potential typo or
improved word choice", differing-length replace → "Improved clarity or
style", delete → "Removed redundant or unnecessary text", insert → "Added
text for clarity or completeness". -/
theorem C3_reason_rule_table (original improved : List Char)
    (ops : List Opcode) (s : Suggestion)
    (hs : s ∈ generateSuggestions original improved ops) :
    ∃ op ∈ ops, op.tag ≠ Tag.equal ∧
      s.original_text = slice original op.i1 op.i2 ∧
      s.improved_text =
        (if op.tag = Tag.delete then [] else slice improved op.j1 op.j2) ∧
      ((op.tag = Tag.replace ∧
          s.original_text.length = s.improved_text.length) →
        s.reason = "Corrected potential typo or improved word choice") ∧
      ((op.tag = Tag.replace ∧
          s.original_text.length ≠ s.improved_text.length) →
        s.reason = "Improved clarity or style") ∧
      (op.tag = Tag.delete →
        s.reason = "Removed redundant or unnecessary text") ∧
      (op.tag = Tag.insert →
        s.reason = "Added text for clarity or completeness") := by
  obtain ⟨op, hop, hne, h1, h2, h3⟩ :=
    aux_mem_reason original improved ops 1 s hs
  refine ⟨op, hop, hne, h1, h2, ?_, ?_, ?_, ?_⟩
  · rintro ⟨ht, hl⟩
    rw [h3, ht]
    simp [getSuggestionReason, hl]
  · rintro ⟨ht, hl⟩
    rw [h3, ht]
    simp [getSuggestionReason, hl]
  · intro ht
    rw [h3, ht]
    simp [getSuggestionReason]
  · intro ht
    rw [h3, ht]
    simp [getSuggestionReason]

/-- Concrete instantiation of `C3_reason_rule_table`: the equal-length
replace `"teh" → "the"` inside `"This is teh document."` yields the
typo/word-choice reason. -/
theorem C3_reason_rule_table_witness :
    (⟨1, 8, 11, "teh".data, "the".data,
        "Corrected potential typo or improved word choice", "pending"⟩ :
        Suggestion) ∈
      generateSuggestions "This is teh document.".data
        "This is the document.".data [⟨Tag.replace, 8, 11, 8, 11⟩]
    ∧ ∃ op ∈ [(⟨Tag.replace, 8, 11, 8, 11⟩ : Opcode)], op.tag ≠ Tag.equal ∧
        (⟨1, 8, 11, "teh".data, "the".data,
          "Corrected potential typo or improved word choice", "pending"⟩ :
          Suggestion).original_text =
          slice "This is teh document.".data op.i1 op.i2 ∧
        (⟨1, 8, 11, "teh".data, "the".data,
          "Corrected potential typo or improved word choice", "pending"⟩ :
          Suggestion).improved_text =
          (if op.tag = Tag.delete then []
            else slice "This is the document.".data op.j1 op.j2) ∧
        ((op.tag = Tag.replace ∧
            "teh".data.length = "the".data.length) →
          "Corrected potential typo or improved word choice" =
            "Corrected potential typo or improved word choice") ∧
        ((op.tag = Tag.replace ∧
            "teh".data.length ≠ "the".data.length) →
          "Corrected potential typo or improved word choice" =
            "Improved clarity or style") ∧
        (op.tag = Tag.delete →
          "Corrected potential typo or improved word choice" =
            "Removed redundant or unnecessary text") ∧
        (op.tag = Tag.insert →
          "Corrected potential typo or improved word choice" =
            "Added text for clarity or completeness") :=
  ⟨by decide,
    C3_reason_rule_table "This is teh document.".data
      "This is the document.".data [⟨Tag.replace, 8, 11, 8, 11⟩]
      ⟨1, 8, 11, "teh".data, "the".data,
        "Corrected potential typo or improved word choice", "pending"⟩
      (by decide)⟩

/-! ## Improvement backends

The external services are oracle parameters: `OllamaModel.chat` stands for
the `ollama.chat` + `json.loads` pipeline (an error value is any exception it
raises), `T5Model.generate` for the tokenizer/model/decode pipeline, and
`T5Model.matcherOpcodes` for `difflib.SequenceMatcher(None, a, b).get_opcodes()`. -/

/-- The JSON object parsed from an Ollama chat reply, as the code reads it:
`result.get('improved_text', text)` and `result.get('suggestions', [])`. -/
structure ChatReply where
  improved_text : Option (List Char)
  suggestions : Option (List Suggestion)

/-- `OllamaModel`: name plus the chat oracle. -/
structure OllamaModel where
  modelName : String
  chat : List Char → Except AIModelError ChatReply

/-- `OllamaModel.improve_text`. -/
def OllamaModel.improve (m : OllamaModel) (text : List Char)
    (wantSuggestions : Bool) : Except AIModelError TextImprovementResult :=
  if (pyStrip text).isEmpty then
    Except.ok { improved_text := text, suggestions := [] }
  else
    match m.chat text with
    | Except.error e =>
        Except.error
          { msg := "Ollama " ++ m.modelName ++
              " text improvement failed: " ++ e.msg }
    | Except.ok reply =>
        Except.ok
          { improved_text := reply.improved_text.getD text,
            suggestions :=
              if wantSuggestions then reply.suggestions.getD [] else [] }

/-- `T5Model`: generation and sequence-matcher oracles. -/
structure T5Model where
  generate : List Char → Except AIModelError (List Char)
  matcherOpcodes : List Char → List Char → List Opcode

/-- `T5Model.improve_text`.  The Python body assigns `suggestions = []`,
shadowing the boolean parameter of the same name, so the subsequent
`if suggestions:` tests the empty list and the `_generate_suggestions`
branch is unreachable. -/
def T5Model.improve (m : T5Model) (text : List Char)
    (wantSuggestions : Bool) : Except AIModelError TextImprovementResult :=
  if (pyStrip text).isEmpty then
    Except.ok { improved_text := text, suggestions := [] }
  else
    match m.generate text with
    | Except.error e =>
        Except.error { msg := "T5 text improvement failed: " ++ e.msg }
    | Except.ok improved =>
        let suggestions : List Suggestion := []
        let suggestions' :=
          if !suggestions.isEmpty then
            generateSuggestions text improved
              (m.matcherOpcodes text improved)
          else suggestions
        Except.ok { improved_text := improved, suggestions := suggestions' }

/-! ## The fallback orchestrator (`AIDocumentModel`) -/

/-- One entry of `AIDocumentModel.models`: the tuple
`(model_type, model_name, model)`, with the model's bound `improve_text`. -/
structure Backend where
  modelType : String
  modelName : String
  improve : List Char → Bool → Except AIModelError TextImprovementResult

/-- The backend entry built from an initialized `OllamaModel`. -/
def ollamaBackend (m : OllamaModel) : Backend :=
  { modelType := "ollama", modelName := m.modelName, improve := m.improve }

/-- The backend entry built from an initialized `T5Model`
(`('t5', 't5-small', t5_model)`). -/
def t5Backend (m : T5Model) : Backend :=
  { modelType := "t5", modelName := "t5-small", improve := m.improve }

/-- The dynamically-typed argument of `AIDocumentModel.improve_text`. -/
inductive PyInput where
  | str (text : List Char)
  | nonStr

deriving instance DecidableEq for Except

/-- Observable outcome of one `improve_text` call: the returned dict or
raised error, the indices of the backends the loop invoked (in order), and
the `model_info["active_model"]` entry recorded on success. -/
structure ImproveOutcome where
  result : Except AIModelError TextImprovementResult
  invoked : List Nat
  activeModel : Option String
deriving DecidableEq, Repr

/-- The fallback loop of `AIDocumentModel.improve_text`, with the position
`idx` of the current backend made explicit. -/
def tryModelsFrom (models : List Backend) (text : List Char)
    (wantSuggestions : Bool) (idx : Nat) : ImproveOutcome :=
  match models with
  | [] =>
      { result := Except.error { msg := "All AI models failed to process text" },
        invoked := [], activeModel := none }
  | b :: rest =>
      match b.improve text wantSuggestions with
      | Except.ok r =>
          { result := Except.ok r, invoked := [idx],
            activeModel := some (b.modelType ++ ":" ++ b.modelName) }
      | Except.error _ =>
          let o := tryModelsFrom rest text wantSuggestions (idx + 1)
          { o with invoked := idx :: o.invoked }

/-- `AIDocumentModel.improve_text`: type-check the argument, then try each
backend in list order. -/
def improveText (models : List Backend) (input : PyInput)
    (wantSuggestions : Bool) : ImproveOutcome :=
  match input with
  | PyInput.nonStr =>
      { result := Except.error { msg := "Text must be a string" },
        invoked := [], activeModel := none }
  | PyInput.str text => tryModelsFrom models text wantSuggestions 0

/-! ## Lemmas about the fallback loop -/

lemma tryModelsFrom_all_fail (models : List Backend) (text : List Char)
    (w : Bool) (idx : Nat)
    (h : ∀ b ∈ models, ∃ e, b.improve text w = Except.error e) :
    tryModelsFrom models text w idx =
      { result := Except.error { msg := "All AI models failed to process text" },
        invoked := List.range' idx models.length, activeModel := none } := by
  induction models generalizing idx with
  | nil => simp [tryModelsFrom, List.range']
  | cons b rest ih =>
    obtain ⟨e, he⟩ := h b (List.mem_cons_self _ _)
    simp only [tryModelsFrom, he]
    rw [ih (idx + 1) (fun x hx => h x (List.mem_cons_of_mem _ hx))]
    simp [List.range']

lemma tryModelsFrom_success (pre : List Backend) (b : Backend)
    (post : List Backend) (text : List Char) (w : Bool) (idx : Nat)
    (r : TextImprovementResult)
    (hpre : ∀ x ∈ pre, ∃ e, x.improve text w = Except.error e)
    (hb : b.improve text w = Except.ok r) :
    tryModelsFrom (pre ++ b :: post) text w idx =
      { result := Except.ok r, invoked := List.range' idx (pre.length + 1),
        activeModel := some (b.modelType ++ ":" ++ b.modelName) } := by
  induction pre generalizing idx with
  | nil =>
    simp only [List.nil_append, tryModelsFrom, hb]
    simp [List.range']
  | cons x xs ih =>
    obtain ⟨e, he⟩ := hpre x (List.mem_cons_self _ _)
    simp only [List.cons_append, tryModelsFrom, he, List.append_eq]
    rw [ih (idx + 1) (fun y hy => hpre y (List.mem_cons_of_mem _ hy))]
    simp [List.range']

lemma tryModelsFrom_error_all (models : List Backend) (text : List Char)
    (w : Bool) (idx : Nat)
    (h : ∃ e, (tryModelsFrom models text w idx).result = Except.error e) :
    ∀ b ∈ models, ∃ e, b.improve text w = Except.error e := by
  induction models generalizing idx with
  | nil => intro b hb; cases hb
  | cons b rest ih =>
    intro x hx
    cases himp : b.improve text w with
    | ok r =>
        obtain ⟨e, he⟩ := h
        simp only [tryModelsFrom, himp] at he
        cases he
    | error e =>
        rcases List.mem_cons.mp hx with rfl | hx
        · exact ⟨e, himp⟩
        · refine ih (idx + 1) ?_ x hx
          obtain ⟨e', he'⟩ := h
          simp only [tryModelsFrom, himp] at he'
          exact ⟨e', he'⟩

/-- C1: for every backend list and every (string) input, the orchestrator
tries backends in list order; the first success is returned immediately
(each earlier backend invoked exactly once, none after the winner invoked),
and the call fails — with the "All AI models failed to process text" error —
exactly when every backend in the list raises, each having been invoked
exactly once. -/
theorem C1_fallback_orchestration (models : List Backend) (text : List Char)
    (w : Bool) :
    ((∃ e, (improveText models (PyInput.str text) w).result = Except.error e)
        ↔ ∀ b ∈ models, ∃ e, b.improve text w = Except.error e)
    ∧ (∀ pre b post r, models = pre ++ b :: post →
        (∀ x ∈ pre, ∃ e, x.improve text w = Except.error e) →
        b.improve text w = Except.ok r →
        improveText models (PyInput.str text) w =
          { result := Except.ok r, invoked := List.range (pre.length + 1),
            activeModel := some (b.modelType ++ ":" ++ b.modelName) })
    ∧ ((∀ b ∈ models, ∃ e, b.improve text w = Except.error e) →
        improveText models (PyInput.str text) w =
          { result :=
              Except.error { msg := "All AI models failed to process text" },
            invoked := List.range models.length, activeModel := none }) := by
  refine ⟨⟨fun h => tryModelsFrom_error_all models text w 0 h, fun h => ?_⟩,
    fun pre b post r hmod hpre hb => ?_, fun h => ?_⟩
  · rw [improveText, tryModelsFrom_all_fail models text w 0 h]
    exact ⟨_, rfl⟩
  · rw [improveText, hmod, tryModelsFrom_success pre b post text w 0 r hpre hb,
      List.range_eq_range']
  · rw [improveText, tryModelsFrom_all_fail models text w 0 h,
      List.range_eq_range']

/-- A backend whose every call raises. -/
def alwaysFailBackend : Backend :=
  { modelType := "ollama", modelName := "llama3.1:latest",
    improve := fun _ _ => Except.error { msg := "connection refused" } }

/-- A fixed successful result, with an empty suggestion list. -/
def okResult : TextImprovementResult :=
  { improved_text := "ok".data, suggestions := [] }

/-- A backend whose every call succeeds with `okResult`. -/
def alwaysOkBackend : Backend :=
  { modelType := "t5", modelName := "t5-small",
    improve := fun _ _ => Except.ok okResult }

/-- Concrete instantiation of `C1_fallback_orchestration`: first backend
raises, second succeeds (with an empty suggestion list); the second's result
is returned, both backends were invoked exactly once. -/
theorem C1_fallback_orchestration_witness :
    improveText [alwaysFailBackend, alwaysOkBackend]
        (PyInput.str "Hello".data) true =
      { result := Except.ok okResult, invoked := List.range 2,
        activeModel := some ("t5" ++ ":" ++ "t5-small") } :=
  (C1_fallback_orchestration [alwaysFailBackend, alwaysOkBackend]
      "Hello".data true).2.1 [alwaysFailBackend] alwaysOkBackend [] okResult
    rfl
    (fun x hx => by
      rw [List.mem_singleton.mp hx]
      exact ⟨{ msg := "connection refused" }, rfl⟩)
    rfl

/-- C10: a non-string argument makes `improve_text` raise
`AIModelError("Text must be a string")` with no backend invoked and no
active-model entry recorded. -/
theorem C10_non_string_input (models : List Backend) (w : Bool) :
    improveText models PyInput.nonStr w =
      { result := Except.error { msg := "Text must be a string" },
        invoked := [], activeModel := none } := rfl

/-- An Ollama backend whose chat oracle always raises; irrelevant for blank
input, which returns before the chat call. -/
def cexOllama : OllamaModel :=
  { modelName := "llama3.1:latest",
    chat := fun _ => Except.error { msg := "unreachable" } }

/-- C4 counterexample: on empty text the orchestrator still invokes the
first backend (the guard lives inside the backends, not the orchestrator),
refuting "without invoking any backend". -/
theorem C4_counterexample :
    (improveText [ollamaBackend cexOllama] (PyInput.str []) true).invoked =
        [0]
    ∧ (improveText [ollamaBackend cexOllama] (PyInput.str []) true).result =
        Except.ok { improved_text := [], suggestions := [] } := by
  constructor
  · rfl
  · rfl

/-- C4 (amended): for empty or whitespace-only text, with any Ollama or T5
backend first in the list, `improve_text` returns the text unchanged with an
empty suggestion list; exactly one backend is invoked, and the result is
independent of that backend's underlying model — the blank-input guard
returns inside the backend before the model is consulted. -/
theorem C4_blank_text_short_circuit (text : List Char)
    (h : (pyStrip text).isEmpty = true) (b : Backend) (rest : List Backend)
    (w : Bool)
    (hb : (∃ m : OllamaModel, b = ollamaBackend m) ∨
          (∃ m : T5Model, b = t5Backend m)) :
    improveText (b :: rest) (PyInput.str text) w =
      { result := Except.ok { improved_text := text, suggestions := [] },
        invoked := [0],
        activeModel := some (b.modelType ++ ":" ++ b.modelName) } := by
  have himp : b.improve text w =
      Except.ok { improved_text := text, suggestions := [] } := by
    rcases hb with ⟨m, rfl⟩ | ⟨m, rfl⟩
    · simp [ollamaBackend, OllamaModel.improve, h]
    · simp [t5Backend, T5Model.improve, h]
  simp [improveText, tryModelsFrom, himp]

/-- Concrete instantiation of `C4_blank_text_short_circuit` on a single
whitespace character with an Ollama backend. -/
theorem C4_blank_text_short_circuit_witness :
    improveText [ollamaBackend cexOllama] (PyInput.str [' ']) true =
      { result := Except.ok { improved_text := [' '], suggestions := [] },
        invoked := [0],
        activeModel := some ((ollamaBackend cexOllama).modelType ++ ":" ++
          (ollamaBackend cexOllama).modelName) } :=
  C4_blank_text_short_circuit [' '] (by decide) (ollamaBackend cexOllama) []
    true (Or.inl ⟨cexOllama, rfl⟩)

/-- The T5 generation oracle at the failing input: the model paraphrases
`"This is teh document."` to `"This is the document."`; the matcher oracle
holds the aligned opcodes of that pair. -/
def cexT5 : T5Model :=
  { generate := fun _ => Except.ok "This is the document.".data,
    matcherOpcodes := fun _ _ =>
      [⟨Tag.equal, 0, 9, 0, 9⟩, ⟨Tag.insert, 9, 9, 9, 10⟩,
       ⟨Tag.equal, 9, 10, 10, 11⟩, ⟨Tag.delete, 10, 11, 11, 11⟩,
       ⟨Tag.equal, 11, 21, 11, 21⟩] }

/-- Every successful `T5Model.improve_text` call returns an empty suggestion
list: the parameter shadowing makes the diff branch unreachable. -/
lemma t5_suggestions_always_empty (m : T5Model) (text : List Char) (w : Bool)
    (r : TextImprovementResult) (h : m.improve text w = Except.ok r) :
    r.suggestions = [] := by
  rw [T5Model.improve] at h
  by_cases hblank : (pyStrip text).isEmpty = true
  · rw [if_pos hblank] at h
    cases h
    rfl
  · rw [if_neg hblank] at h
    cases hgen : m.generate text with
    | ok improved =>
        rw [hgen] at h
        simp only [List.isEmpty_nil, Bool.not_true, Bool.false_eq_true,
          reduceIte] at h
        cases h
        rfl
    | error e =>
        rw [hgen] at h
        cases h

/-- C5 (code bug): at the failing input, the T5 backend succeeds but returns
an empty suggestion list, even though the diff of original vs improved text
has non-blank non-`equal` opcodes and `_generate_suggestions` would emit
suggestions — the assignment `suggestions = []` shadows the boolean
parameter, so `if suggestions:` never fires. -/
theorem C5_t5_suggestions_lost :
    cexT5.improve "This is teh document.".data true =
      Except.ok
        { improved_text := "This is the document.".data,
          suggestions := [] }
    ∧ generateSuggestions "This is teh document.".data
        "This is the document.".data
        (cexT5.matcherOpcodes "This is teh document.".data
          "This is the document.".data) ≠ [] :=
  ⟨rfl, by decide⟩

/-! ## Orchestrator initialization (`AIDocumentModel.__init__`) -/

/-- The environment of `AIDocumentModel.__init__`: the configured model
names (`config.ai.get(..)`) and the fallible constructors `OllamaModel(...)`
and `T5Model(...)`, each an oracle for the external service. -/
structure InitEnv where
  cfgOllamaPrimary : Option String
  cfgOllamaSecondary : Option String
  cfgT5Name : Option String
  ollamaInit : String → Except AIModelError OllamaModel
  t5Init : String → Except AIModelError T5Model

/-- The best-effort Ollama loop of `__init__`: try the primary and secondary
configured names in order, append `('ollama', model_name, model)` on
success, skip with a warning on failure. -/
def ollamaEntries (env : InitEnv) : List Backend :=
  ([env.cfgOllamaPrimary.getD "llama3.1:latest",
    env.cfgOllamaSecondary.getD "llama2:latest"]).foldl
    (fun acc name =>
      match env.ollamaInit name with
      | Except.ok m =>
          acc ++ [{ modelType := "ollama", modelName := name,
                    improve := m.improve }]
      | Except.error _ => acc) []

/-- `AIDocumentModel.__init__`: Ollama models best-effort, then T5; raise
`"No models available: T5 initialization failed"` if T5 fails, and (dead
code, as T5 has just been appended) `"No AI models could be initialized"`
if the list is empty. -/
def initModels (env : InitEnv) : Except AIModelError (List Backend) :=
  match env.t5Init (env.cfgT5Name.getD "t5-small") with
  | Except.ok m =>
      if (ollamaEntries env ++ [t5Backend m]).isEmpty then
        Except.error { msg := "No AI models could be initialized" }
      else
        Except.ok (ollamaEntries env ++ [t5Backend m])
  | Except.error _ =>
      Except.error { msg := "No models available: T5 initialization failed" }

/-- C8: when `__init__` completes without raising, the backend list is
non-empty; and when no backend can be initialized (every Ollama constructor
and the T5 constructor raise), `__init__` itself raises — failing fast at
start-up rather than at the first request. -/
theorem C8_init_nonempty_or_fail (env : InitEnv) :
    (∀ models, initModels env = Except.ok models → models ≠ [])
    ∧ ((∀ name, ∃ e, env.ollamaInit name = Except.error e) →
       (∀ name, ∃ e, env.t5Init name = Except.error e) →
       ∃ e, initModels env = Except.error e) := by
  constructor
  · intro models h
    rw [initModels] at h
    cases ht : env.t5Init (env.cfgT5Name.getD "t5-small") with
    | ok m =>
        rw [ht] at h
        have hne : (ollamaEntries env ++ [t5Backend m]).isEmpty = false := by
          simp
        simp [hne] at h
        subst h
        simp
    | error e =>
        rw [ht] at h
        simp at h
  · intro _ hT5
    obtain ⟨e, he⟩ := hT5 (env.cfgT5Name.getD "t5-small")
    rw [initModels, he]
    exact ⟨_, rfl⟩

/-- An initialization environment in which every constructor raises. -/
def cexInitEnv : InitEnv :=
  { cfgOllamaPrimary := none, cfgOllamaSecondary := none, cfgT5Name := none,
    ollamaInit := fun _ => Except.error { msg := "ollama daemon not running" },
    t5Init := fun _ => Except.error { msg := "weights missing" } }

/-- Concrete instantiation of `C8_init_nonempty_or_fail`: with every
constructor raising, initialization raises. -/
theorem C8_init_nonempty_or_fail_witness :
    ∃ e, initModels cexInitEnv = Except.error e :=
  (C8_init_nonempty_or_fail cexInitEnv).2
    (fun _ => ⟨{ msg := "ollama daemon not running" }, rfl⟩)
    (fun _ => ⟨{ msg := "weights missing" }, rfl⟩)

/-! ## Text extraction (`extract_text`)

The per-format parsers (PyPDF2, python-docx, pandas, zipfile) are oracle
parameters; UTF-8 decoding and the pandas table rendering, whose exact
behaviour the claims depend on, are modelled concretely. -/

/-- A UTF-8 continuation byte (`0x80..0xBF`). -/
def isCont (b : Nat) : Bool := decide (0x80 ≤ b) && decide (b ≤ 0xBF)

/-- Valid range of the second byte of a multi-byte UTF-8 sequence led by
`b0` (the tightened ranges exclude overlong encodings, surrogates and values
above U+10FFFF). -/
def utf8Second (b0 b1 : Nat) : Bool :=
  if b0 = 0xE0 then decide (0xA0 ≤ b1) && decide (b1 ≤ 0xBF)
  else if b0 = 0xED then decide (0x80 ≤ b1) && decide (b1 ≤ 0x9F)
  else if b0 = 0xF0 then decide (0x90 ≤ b1) && decide (b1 ≤ 0xBF)
  else if b0 = 0xF4 then decide (0x80 ≤ b1) && decide (b1 ≤ 0x8F)
  else isCont b1

/-- U+FFFD. -/
def replacementChar : Char := Char.ofNat 0xFFFD

/-- Best-effort UTF-8 decoding, modelling Python `bytes.decode("utf-8",
errors=...)`: a well-formed sequence decodes to its scalar value; at an
ill-formed position the decoder drops the leading byte — emitting U+FFFD
first when `rep` is set (`errors="replace"`), emitting nothing otherwise
(`errors="ignore"`) — and resumes.  The fuel argument (one unit per
consumed leading byte) only makes the recursion structural; `utf8Decode`
supplies enough for the whole input. -/
def utf8DecodeFuel (rep : Bool) : Nat → List Nat → List Char
  | 0, _ => []
  | _, [] => []
  | fuel + 1, b0 :: rest =>
    if b0 < 0x80 then
      Char.ofNat b0 :: utf8DecodeFuel rep fuel rest
    else if 0xC2 ≤ b0 ∧ b0 ≤ 0xDF then
      match rest with
      | b1 :: rest1 =>
          if isCont b1 then
            Char.ofNat ((b0 - 0xC0) * 64 + (b1 - 0x80)) ::
              utf8DecodeFuel rep fuel rest1
          else
            (if rep then [replacementChar] else []) ++
              utf8DecodeFuel rep fuel rest
      | [] => if rep then [replacementChar] else []
    else if 0xE0 ≤ b0 ∧ b0 ≤ 0xEF then
      match rest with
      | b1 :: b2 :: rest2 =>
          if utf8Second b0 b1 && isCont b2 then
            Char.ofNat ((b0 - 0xE0) * 4096 + (b1 - 0x80) * 64 +
                (b2 - 0x80)) ::
              utf8DecodeFuel rep fuel rest2
          else
            (if rep then [replacementChar] else []) ++
              utf8DecodeFuel rep fuel rest
      | _ =>
          (if rep then [replacementChar] else []) ++
            utf8DecodeFuel rep fuel rest
    else if 0xF0 ≤ b0 ∧ b0 ≤ 0xF4 then
      match rest with
      | b1 :: b2 :: b3 :: rest3 =>
          if utf8Second b0 b1 && isCont b2 && isCont b3 then
            Char.ofNat ((b0 - 0xF0) * 262144 + (b1 - 0x80) * 4096 +
                (b2 - 0x80) * 64 + (b3 - 0x80)) ::
              utf8DecodeFuel rep fuel rest3
          else
            (if rep then [replacementChar] else []) ++
              utf8DecodeFuel rep fuel rest
      | _ =>
          (if rep then [replacementChar] else []) ++
            utf8DecodeFuel rep fuel rest
    else
      (if rep then [replacementChar] else []) ++
        utf8DecodeFuel rep fuel rest

/-- UTF-8 decode of a whole byte sequence (see `utf8DecodeFuel`). -/
def utf8Decode (rep : Bool) (bs : List Nat) : List Char :=
  utf8DecodeFuel rep bs.length bs

/-- `str.startswith`, over code points. -/
def pyStartsWith (s pre : String) : Bool :=
  decide (s.data.take pre.data.length = pre.data)

/-- `str.endswith`, over code points. -/
def pyEndsWith (s suf : String) : Bool :=
  decide (s.data.drop (s.data.length - suf.data.length) = suf.data ∧
    suf.data.length ≤ s.data.length)

/-- The decoding the specification's words require for plain text / CSV /
SQL: "decode as UTF-8, replacing invalid byte sequences rather than
failing". -/
def specDecodeReplace (bs : List Nat) : List Char := utf8Decode true bs

/-- A parsed spreadsheet, as `pandas.read_excel` yields it: header row plus
data rows of cell strings, with the default integer index. -/
structure Table where
  header : List String
  rows : List (List String)

/-- Right-align `s` to width `w` with spaces. -/
def padLeft (s : String) (w : Nat) : String :=
  String.mk (List.replicate (w - s.length) ' ') ++ s

/-- `pandas.DataFrame.to_string()` for a table of strings with the default
integer index: every column right-aligned to the maximum of its header and
cell widths, columns separated by two spaces, and the index column — headed
by blanks — first.  The first line therefore begins with padding whitespace
whenever the table is non-empty.  (Model of the library call in the
spreadsheet branch.) -/
def dfToString (t : Table) : List Char :=
  let idxWidth := (List.range t.rows.length).foldl
    (fun acc i => max acc (toString i).length) 0
  let ws := t.header.enum.map (fun p =>
    (t.rows.map (fun r => (r.getD p.1 "").length)).foldl max p.2.length)
  let headerLine := padLeft "" idxWidth ++
    String.join ((t.header.zip ws).map (fun p => "  " ++ padLeft p.1 p.2))
  let rowLine := fun (i : Nat) (r : List String) =>
    padLeft (toString i) idxWidth ++
      String.join ((r.zip ws).map (fun p => "  " ++ padLeft p.1 p.2))
  (String.intercalate "\n"
    (headerLine :: t.rows.enum.map (fun p => rowLine p.1 p.2))).data

/-- The exception `DocumentProcessingError`, carrying its message. -/
structure DocumentProcessingError where
  msg : String
deriving DecidableEq, Repr

/-- The parser oracles of `extract_text`: each stands for a library call on
the raw bytes; an error value is any exception it raises (the message is
`str(e)`).  A PDF page's `extract_text()` may return `None` (`or ""`). -/
structure ExtractEnv where
  pdfPages : List Nat → Except String (List (Option (List Char)))
  docxParas : List Nat → Except String (List (List Char))
  readExcel : List Nat → Except String Table
  zipEntries : List Nat → Except String (List (String × List Nat))

/-- The `try:` body of `extract_text`, dispatching on the declared content
type exactly as the `if`/`elif` chain does. -/
def extractBody (env : ExtractEnv) (content : List Nat)
    (contentType : String) : Except String (List Char) :=
  if contentType = "application/pdf" then
    match env.pdfPages content with
    | Except.error e => Except.error e
    | Except.ok pages =>
        Except.ok (pyStrip (List.flatten (pages.map (fun p => p.getD []))))
  else if contentType =
      "application/vnd.openxmlformats-officedocument.wordprocessingml.document" then
    match env.docxParas content with
    | Except.error e => Except.error e
    | Except.ok paras => Except.ok (pyStrip (List.intercalate ['\n'] paras))
  else if contentType = "text/plain" ∨ contentType = "text/csv" then
    Except.ok (pyStrip (utf8Decode false content))
  else if contentType = "application/vnd.ms-excel" ∨
      contentType =
        "application/vnd.openxmlformats-officedocument.spreadsheetml.sheet" then
    match env.readExcel content with
    | Except.error e => Except.error e
    | Except.ok t => Except.ok (dfToString t)
  else if contentType = "application/sql" then
    Except.ok (pyStrip (utf8Decode false content))
  else if contentType = "application/zip" then
    match env.zipEntries content with
    | Except.error e => Except.error e
    | Except.ok entries =>
        Except.ok (pyStrip (List.flatten (entries.map (fun p =>
          if pyEndsWith p.1 ".txt" then utf8Decode false p.2 ++ ['\n']
          else []))))
  else if contentType = "application/x-rar" then
    Except.ok []
  else if pyStartsWith contentType "image/" then
    Except.error "Image OCR not supported by current models"
  else if pyStartsWith contentType "audio/" ||
      pyStartsWith contentType "video/" then
    Except.error "Audio/Video transcription not supported by current models"
  else
    Except.error ("Unsupported file type: " ++ contentType)

/-- `extract_text`: the body under the blanket `except Exception`, which
re-wraps every failure — the branch-raised `DocumentProcessingError`s
included — as `DocumentProcessingError("Failed to extract text: ...")`. -/
def extractText (env : ExtractEnv) (content : List Nat)
    (contentType : String) (filename : String) :
    Except DocumentProcessingError (List Char) :=
  match extractBody env content contentType with
  | Except.ok t => Except.ok t
  | Except.error e =>
      Except.error { msg := "Failed to extract text: " ++ e }

/-- A concrete parser environment: one PDF page, one paragraph, a one-cell
table `a → 1`, and one zip entry `notes.txt` containing `"hi"`. -/
def cexExtractEnv : ExtractEnv :=
  { pdfPages := fun _ => Except.ok [some "page".data],
    docxParas := fun _ => Except.ok ["para".data],
    readExcel := fun _ => Except.ok { header := ["a"], rows := [["1"]] },
    zipEntries := fun _ => Except.ok [("notes.txt", [104, 105])] }

/-! ## Lemmas about trimming -/

lemma dropWhile_cons_false {α : Type} {p : α → Bool} {s : List α} {c : α}
    {cs : List α} (h : s.dropWhile p = c :: cs) : p c = false := by
  induction s with
  | nil => cases h
  | cons x xs ih =>
    rw [List.dropWhile_cons] at h
    by_cases hx : p x = true
    · rw [if_pos hx] at h
      exact ih h
    · rw [if_neg hx] at h
      cases h
      exact Bool.eq_false_iff.mpr hx

lemma pyStrip_idempotent (s : List Char) : pyStrip (pyStrip s) = pyStrip s := by
  rw [pyStrip, pyStrip]
  have h1 : ((s.dropWhile pyIsSpace).rdropWhile pyIsSpace).dropWhile pyIsSpace
      = (s.dropWhile pyIsSpace).rdropWhile pyIsSpace := by
    cases hh : (s.dropWhile pyIsSpace).rdropWhile pyIsSpace with
    | nil => rfl
    | cons c cs =>
      obtain ⟨u, hu⟩ :=
        List.rdropWhile_prefix pyIsSpace (s.dropWhile pyIsSpace)
      rw [hh] at hu
      have hu' : s.dropWhile pyIsSpace = c :: (cs ++ u) := by
        rw [← hu]
        rfl
      have hc : pyIsSpace c = false := dropWhile_cons_false hu'
      rw [List.dropWhile_cons, hc]
      simp
  rw [h1, List.rdropWhile_idempotent]

/-- C6 counterexample: the spreadsheet branch returns
`pandas.DataFrame.to_string()` without trimming, and that rendering begins
with padding whitespace (here, for a one-cell table, `"   a\n0  1"`). -/
theorem C6_counterexample :
    extractText cexExtractEnv [0] "application/vnd.ms-excel" "t.xlsx" =
      Except.ok "   a\n0  1".data
    ∧ pyStrip "   a\n0  1".data ≠ "   a\n0  1".data := by
  refine ⟨rfl, by decide⟩

/-- C6 (amended): extraction output is trimmed of leading and trailing
whitespace for every supported content type except spreadsheets, whose
branch returns the tabular rendering verbatim. -/
theorem C6_extract_trimmed (env : ExtractEnv) (content : List Nat)
    (contentType filename : String) (t : List Char)
    (hct1 : contentType ≠ "application/vnd.ms-excel")
    (hct2 : contentType ≠
      "application/vnd.openxmlformats-officedocument.spreadsheetml.sheet")
    (h : extractText env content contentType filename = Except.ok t) :
    pyStrip t = t := by
  rw [extractText] at h
  cases hb : extractBody env content contentType with
  | error e =>
      rw [hb] at h
      cases h
  | ok u =>
      rw [hb] at h
      cases h
      rw [extractBody] at hb
      split_ifs at hb with h1 h2 h3 h4 h5 h6 h7 h8 h9
      all_goals first
        | (rcases h4 with h4 | h4
           all_goals first
             | exact absurd h4 hct1
             | exact absurd h4 hct2)
        | (cases hp : env.pdfPages content
           all_goals rw [hp] at hb
           all_goals cases hb
           all_goals exact pyStrip_idempotent _)
        | (cases hp : env.docxParas content
           all_goals rw [hp] at hb
           all_goals cases hb
           all_goals exact pyStrip_idempotent _)
        | (cases hp : env.zipEntries content
           all_goals rw [hp] at hb
           all_goals cases hb
           all_goals exact pyStrip_idempotent _)
        | (cases hb
           all_goals exact pyStrip_idempotent _)
        | (cases hb
           all_goals rfl)
        | cases hb

/-- Concrete instantiation of `C6_extract_trimmed` on plain text `"hi "`
(trailing space): the extracted text `"hi"` is its own trim. -/
theorem C6_extract_trimmed_witness : pyStrip "hi".data = "hi".data :=
  C6_extract_trimmed cexExtractEnv [104, 105, 32] "text/plain" "a.txt"
    "hi".data (by decide) (by decide) (by decide)

/-- C7 counterexample: a rar input does not report any error — the branch
returns the empty string successfully, refuting "extract reports an
UnsupportedOperation error" for rar. -/
theorem C7_counterexample :
    extractText cexExtractEnv [1, 2, 3] "application/x-rar" "a.rar" =
      Except.ok [] := rfl

/-- C7 (amended): image, audio and video inputs fail with a
`DocumentProcessingError` whose message names the missing capability and is
textually distinct from the no-handler ("Unsupported file type") message,
though both are carried by the same exception type; rar inputs return the
empty string without error. -/
theorem C7_unsupported_media (env : ExtractEnv) (content : List Nat)
    (filename : String) :
    extractText env content "image/png" filename =
      Except.error
        { msg := "Failed to extract text: Image OCR not supported by current models" }
    ∧ extractText env content "audio/mpeg" filename =
      Except.error
        { msg := "Failed to extract text: Audio/Video transcription not supported by current models" }
    ∧ extractText env content "video/mp4" filename =
      Except.error
        { msg := "Failed to extract text: Audio/Video transcription not supported by current models" }
    ∧ extractText env content "application/x-rar" filename = Except.ok []
    ∧ extractText env content "application/octet-stream" filename =
      Except.error
        { msg := "Failed to extract text: Unsupported file type: application/octet-stream" }
    ∧ ("Failed to extract text: Image OCR not supported by current models" ≠
        "Failed to extract text: Unsupported file type: image/png") :=
  ⟨rfl, rfl, rfl, rfl, rfl, by decide⟩

/-- C9 (amended): for plain text, CSV and SQL the extractor never fails on
invalid UTF-8 — for every byte sequence it returns the trimmed decode in
which ill-formed sequences are dropped (`errors="ignore"`), not replaced. -/
theorem C9_text_decode_ignores_errors (env : ExtractEnv) (content : List Nat)
    (filename : String) (ct : String)
    (hct : ct = "text/plain" ∨ ct = "text/csv" ∨ ct = "application/sql") :
    extractText env content ct filename =
      Except.ok (pyStrip (utf8Decode false content)) := by
  rcases hct with rfl | rfl | rfl <;> rfl

/-- Concrete instantiation of `C9_text_decode_ignores_errors` on the
invalid byte `0xFF` as plain text. -/
theorem C9_text_decode_ignores_errors_witness :
    extractText cexExtractEnv [255] "text/plain" "a.txt" =
      Except.ok (pyStrip (utf8Decode false [255])) :=
  C9_text_decode_ignores_errors cexExtractEnv [255] "a.txt" "text/plain"
    (Or.inl rfl)

/-- C9 counterexample: on the lone invalid byte `0xFF` the code returns the
empty string (the byte is dropped), while decoding "with invalid byte
sequences replaced", as the claim words it, would yield U+FFFD. -/
theorem C9_counterexample :
    extractText cexExtractEnv [255] "text/plain" "a.txt" = Except.ok []
    ∧ pyStrip (specDecodeReplace [255]) = [replacementChar]
    ∧ ([] : List Char) ≠ [replacementChar] :=
  ⟨rfl, by decide, by decide⟩

end DocProc
